import Mathlib

/-!
Shallow embedding of the streaming chat session core: the stream-based
ChatInterface component (transcript state, per-turn EventSource stream
clients, and the handlers sendMessage, clearChat, onmessage, onerror).
State is passed explicitly; the discrete events of the single-threaded,
event-driven session (user actions and stream callbacks) drive a step
function on a session state.
-/

/-- Message status values used by the chat interface
(sending, sent, streaming, error). -/
inductive Status where
  | sending
  | sent
  | streaming
  | error
deriving DecidableEq, Repr

/-- Message roles (user, assistant, system). -/
inductive Role where
  | user
  | assistant
  | system
deriving DecidableEq, Repr

/-- One transcript message. The source also stores a creation timestamp
that no handler ever reads back; it is omitted from the embedding. -/
structure Message where
  id : Nat
  role : Role
  content : String
  status : Status
deriving DecidableEq, Repr

/-- Connection state status values (connected, loading, error). -/
inductive CStatus where
  | connected
  | loading
  | error
deriving DecidableEq, Repr

/-- Connection state: a status plus a human-readable message. -/
structure ConnState where
  status : CStatus
  message : String
deriving DecidableEq, Repr

/-- One EventSource stream client created by a sendMessage call: the id of
the assistant placeholder it feeds, the closure variable
accumulatedContent, and whether the connection is still open
(non-terminal). A client is closed only by its own onerror handler. -/
structure StreamClient where
  assistantId : Nat
  accumulated : String
  isOpen : Bool
deriving DecidableEq, Repr

/-- Session state of one ChatInterface instance: the messages array, the
isProcessing flag, the connectionState, every EventSource created so far
(indexed by creation order), and a counter supplying fresh message ids
(modelling uuidv4, whose sole relied-upon property is freshness). -/
structure SessionState where
  messages : List Message
  isProcessing : Bool
  connection : ConnState
  clients : List StreamClient
  nextId : Nat
deriving DecidableEq, Repr

/-- Result of JSON.parse applied to one SSE frame: the parse throws
(malformed), or it yields an object whose content field is absent (none)
or a string. JS truthiness for strings: only the empty string is falsy. -/
inductive FrameData where
  | malformed
  | frame (content : Option String)
deriving DecidableEq, Repr

/-- Discrete events of the single-threaded session: a sendMessage call, a
clearChat call, and the onmessage / onerror callbacks of the stream
client with the given creation index. -/
inductive Event where
  | send (text : String)
  | clear
  | frame (clientIdx : Nat) (data : FrameData)
  | error (clientIdx : Nat)
deriving DecidableEq, Repr

/-- Embedding of JS String.prototype.trim(): drop leading and trailing
whitespace characters. Stated by structural recursion on the character
list so that it evaluates by kernel reduction. -/
def jsTrim (s : String) : String :=
  ⟨((s.data.dropWhile Char.isWhitespace).reverse.dropWhile Char.isWhitespace).reverse⟩

/-- The setMessages(prev.map(msg => msg.id === target ? ... : msg))
pattern used by every transcript update in the component: apply f to
every message whose id matches the target, leave the others unchanged. -/
def updateMsg (ms : List Message) (target : Nat) (f : Message → Message) : List Message :=
  ms.map fun m => if m.id = target then f m else m

/-- The sendMessage handler of the stream-based variant. Guard: a no-op
on whitespace-only text (content.trim is empty). Otherwise it appends the
user message with status sending, sets isProcessing true, updates that
message to status sent, appends the assistant placeholder with empty
content and status streaming, and creates a new EventSource (an open
client whose accumulatedContent starts empty). The function has no awaits
and its try block ends in a return, so the finally block runs immediately
and sets isProcessing back to false before any stream event can arrive.
The handler contains no isProcessing check and closes no existing
client. -/
def sendMessage (s : SessionState) (text : String) : SessionState :=
  if jsTrim text = "" then s
  else
    let uid := s.nextId
    let aid := s.nextId + 1
    let ms1 := s.messages ++ [⟨uid, Role.user, text, Status.sending⟩]
    let ms2 := updateMsg ms1 uid fun m => { m with status := Status.sent }
    let ms3 := ms2 ++ [⟨aid, Role.assistant, "", Status.streaming⟩]
    { messages := ms3
      isProcessing := false
      connection := s.connection
      clients := s.clients ++ [⟨aid, "", true⟩]
      nextId := s.nextId + 2 }

/-- The clearChat handler: setMessages([]). It touches nothing else — in
particular it closes no stream client. -/
def clearChat (s : SessionState) : SessionState :=
  { s with messages := [] }

/-- The eventSource.onmessage handler of client c applied to one frame,
returning the updated client and messages array: a frame whose parse
throws is logged and dropped; a parsed frame with falsy content is
ignored; otherwise the delta is appended to accumulatedContent and the
placeholder content is replaced by the new accumulated value with status
streaming. -/
def onMessage (c : StreamClient) (ms : List Message) (d : FrameData) :
    StreamClient × List Message :=
  match d with
  | FrameData.malformed => (c, ms)
  | FrameData.frame none => (c, ms)
  | FrameData.frame (some t) =>
      if t = "" then (c, ms)
      else
        let acc := c.accumulated ++ t
        ({ c with accumulated := acc },
          updateMsg ms c.assistantId fun m =>
            { m with content := acc, status := Status.streaming })

/-- The eventSource.onerror handler of client c: close the connection,
set the placeholder status to sent (the message is only updated, never
removed), and set isProcessing false. It does not touch the connection
state. -/
def onError (c : StreamClient) (s : SessionState) (k : Nat) : SessionState :=
  { s with
    clients := s.clients.set k { c with isOpen := false }
    messages := updateMsg s.messages c.assistantId fun m => { m with status := Status.sent }
    isProcessing := false }

/-- One step of the session: dispatch an event to the corresponding
handler. Stream callbacks of a client that does not exist or whose
connection is already closed never fire (EventSource delivers no events
after close()). -/
def step (s : SessionState) (e : Event) : SessionState :=
  match e with
  | Event.send text => sendMessage s text
  | Event.clear => clearChat s
  | Event.frame k d =>
      match s.clients[k]? with
      | none => s
      | some c =>
          if c.isOpen then
            let r := onMessage c s.messages d
            { s with clients := s.clients.set k r.1, messages := r.2 }
          else s
  | Event.error k =>
      match s.clients[k]? with
      | none => s
      | some c => if c.isOpen then onError c s k else s

/-- Run a sequence of events from a state. -/
def run (s : SessionState) (es : List Event) : SessionState :=
  es.foldl step s

/-- Initial state of a ChatInterface instance: empty transcript, not
processing, connection connected with empty message, no clients. -/
def initState : SessionState :=
  { messages := []
    isProcessing := false
    connection := ⟨CStatus.connected, ""⟩
    clients := []
    nextId := 0 }

/-- The first message of the transcript carrying the given id, if any. -/
def getMsg (s : SessionState) (i : Nat) : Option Message :=
  s.messages.find? fun m => m.id == i

/-- Content of the first message with the given id. -/
def contentOf (s : SessionState) (i : Nat) : Option String :=
  (getMsg s i).map fun m => m.content

/-- Status of the first message with the given id. -/
def statusOf (s : SessionState) (i : Nat) : Option Status :=
  (getMsg s i).map fun m => m.status

/-- Number of stream clients of the session whose connection is still
open, i.e. in a non-terminal state. -/
def openClientCount (s : SessionState) : Nat :=
  (s.clients.filter fun c => c.isOpen).length

/-- Concatenation of a list of strings in order. -/
def concatAll : List String → String
  | [] => ""
  | d :: ds => d ++ concatAll ds

/-- Content delivered by one frame if and only if it parses and its
content field is truthy — exactly the frames the onmessage handler
applies. -/
def goodContent : FrameData → Option String
  | FrameData.frame (some t) => if t = "" then none else some t
  | _ => none

/-- Contents of the frames of a list that parse with truthy content. -/
def goodContents (fs : List FrameData) : List String :=
  fs.filterMap goodContent

/-- Transcript-store error values named by the specification. -/
inductive TSError where
  | notFound
  | duplicateId
deriving DecidableEq, Repr

/-- Specification-side transcript update, following the words of the
spec: merge fields into the existing message, fail with NotFoundError if
the id is absent. Stated only to contrast with the map-based update the
code actually performs. -/
def specUpdate (ms : List Message) (target : Nat) (f : Message → Message) :
    Except TSError (List Message) :=
  if ms.any fun m => m.id == target then Except.ok (updateMsg ms target f)
  else Except.error TSError.notFound

/-- Id and role of a message: the components every transcript update of
the component leaves untouched. -/
def idRole (m : Message) : Nat × Role := (m.id, m.role)

/-- Session state after one applied (truthy, well-formed) delta t of
client c at index k: the client accumulator grows and the placeholder
content is replaced by the new accumulated value. -/
def applyDelta (s : SessionState) (k : Nat) (c : StreamClient) (t : String) : SessionState :=
  { s with
    clients := s.clients.set k { c with accumulated := c.accumulated ++ t }
    messages := updateMsg s.messages c.assistantId fun x =>
      { x with content := c.accumulated ++ t, status := Status.streaming } }

/-- Sequence of (id, role) pairs appended to the transcript by a list of
events, starting from the given fresh-id counter: each non-whitespace
send appends a user message and an assistant placeholder and consumes
two fresh ids; no other event appends. -/
def appendTrace (n : Nat) : List Event → List (Nat × Role)
  | [] => []
  | Event.send t :: es =>
      if jsTrim t = "" then appendTrace n es
      else (n, Role.user) :: (n + 1, Role.assistant) :: appendTrace (n + 2) es
  | Event.clear :: es => appendTrace n es
  | Event.frame _ _ :: es => appendTrace n es
  | Event.error _ :: es => appendTrace n es

/-- Concrete session state with a turn in flight: one sent user message,
one streaming assistant placeholder, an open stream client, and the
isProcessing flag raised. -/
def busyState : SessionState :=
  { messages := [⟨0, Role.user, "hi", Status.sent⟩, ⟨1, Role.assistant, "", Status.streaming⟩]
    isProcessing := true
    connection := ⟨CStatus.connected, ""⟩
    clients := [⟨1, "", true⟩]
    nextId := 2 }

/-- Concrete two-message transcript used to exercise updates addressed
to an id that is not present. -/
def exMsgs : List Message :=
  [⟨0, Role.user, "hi", Status.sent⟩, ⟨1, Role.assistant, "ok", Status.sent⟩]

/-- Concrete event sequence without clear: two turns, with a delta and a
stream error for the first turn's client in between. -/
def evList : List Event :=
  [Event.send "a", Event.frame 0 (FrameData.frame (some "x")), Event.error 0, Event.send "b"]

/-! ### Generic list, string and boolean-equality helpers -/

theorem list_set_self {α : Type} (l : List α) (k : Nat) (a : α)
    (h : l[k]? = some a) : l.set k a = l := by
  induction l generalizing k with
  | nil => simp at h
  | cons x xs ih =>
    cases k with
    | zero =>
      simp at h
      simp [List.set, h]
    | succ n =>
      simp at h
      simp [List.set, ih n h]

theorem list_getElem_set_self {α : Type} (l : List α) (k : Nat) (a b : α)
    (h : l[k]? = some a) : (l.set k b)[k]? = some b := by
  induction l generalizing k with
  | nil => simp at h
  | cons x xs ih =>
    cases k with
    | zero => simp [List.set]
    | succ n => simpa using ih n (by simpa using h)

theorem list_getElem_append_left {α : Type} (l1 l2 : List α) (k : Nat) (a : α)
    (h : l1[k]? = some a) : (l1 ++ l2)[k]? = some a := by
  induction l1 generalizing k with
  | nil => simp at h
  | cons x xs ih =>
    cases k with
    | zero => simpa using h
    | succ n => simpa using ih n (by simpa using h)

theorem find_append_of_none {α : Type} (p : α → Bool) (l1 l2 : List α)
    (h : ∀ x ∈ l1, p x = false) : (l1 ++ l2).find? p = l2.find? p := by
  induction l1 with
  | nil => rfl
  | cons x xs ih =>
    rw [List.cons_append, List.find?_cons_of_neg _ (by simp [h x (List.mem_cons_self x xs)])]
    exact ih fun y hy => h y (List.mem_cons_of_mem x hy)

/-! ### Lemmas about the map-based transcript update -/

theorem updateMsg_nil (i : Nat) (f : Message → Message) : updateMsg [] i f = [] := rfl

theorem updateMsg_cons (x : Message) (xs : List Message) (i : Nat) (f : Message → Message) :
    updateMsg (x :: xs) i f = (if x.id = i then f x else x) :: updateMsg xs i f := rfl

theorem updateMsg_append (a b : List Message) (i : Nat) (f : Message → Message) :
    updateMsg (a ++ b) i f = updateMsg a i f ++ updateMsg b i f :=
  List.map_append _ a b

theorem updateMsg_absent (ms : List Message) (i : Nat) (f : Message → Message)
    (h : ∀ m ∈ ms, m.id ≠ i) : updateMsg ms i f = ms := by
  induction ms with
  | nil => rfl
  | cons x xs ih =>
    rw [updateMsg_cons, if_neg (h x (List.mem_cons_self x xs)),
      ih fun y hy => h y (List.mem_cons_of_mem x hy)]

theorem find_updateMsg (ms : List Message) (i : Nat) (f : Message → Message)
    (hf : ∀ m, (f m).id = m.id) :
    (updateMsg ms i f).find? (fun m => m.id == i) =
      (ms.find? fun m => m.id == i).map f := by
  induction ms with
  | nil => rfl
  | cons x xs ih =>
    by_cases h : x.id = i
    · have hx : ((f x).id == i) = true := by rw [hf x, h]; exact beq_self_eq_true i
      have hx2 : (x.id == i) = true := by rw [h]; exact beq_self_eq_true i
      rw [updateMsg_cons, if_pos h]
      simp [List.find?, hx, hx2]
    · have hx : (x.id == i) = false := beq_false_of_ne h
      rw [updateMsg_cons, if_neg h]
      simp [List.find?, hx, ih]

theorem updateMsg_idRole (ms : List Message) (i : Nat) (f : Message → Message)
    (hf : ∀ m, (f m).id = m.id ∧ (f m).role = m.role) :
    (updateMsg ms i f).map idRole = ms.map idRole := by
  induction ms with
  | nil => rfl
  | cons x xs ih =>
    rw [updateMsg_cons]
    by_cases h : x.id = i
    · rw [if_pos h]
      simp [List.map_cons, ih, idRole, (hf x).1, (hf x).2]
    · rw [if_neg h]
      simp [List.map_cons, ih]

/-! ### Unfolding lemmas for the handlers -/

theorem run_cons (s : SessionState) (e : Event) (es : List Event) :
    run s (e :: es) = run (step s e) es := rfl

theorem run_append (s : SessionState) (es1 es2 : List Event) :
    run s (es1 ++ es2) = run (run s es1) es2 :=
  List.foldl_append step s es1 es2

theorem sendMessage_eq (s : SessionState) (text : String)
    (htext : ¬ jsTrim text = "")
    (hids : ∀ m ∈ s.messages, m.id ≠ s.nextId) :
    sendMessage s text =
      { messages := s.messages ++
          [⟨s.nextId, Role.user, text, Status.sent⟩,
            ⟨s.nextId + 1, Role.assistant, "", Status.streaming⟩]
        isProcessing := false
        connection := s.connection
        clients := s.clients ++ [⟨s.nextId + 1, "", true⟩]
        nextId := s.nextId + 2 } := by
  have habs : ∀ f : Message → Message, updateMsg s.messages s.nextId f = s.messages :=
    fun f => updateMsg_absent s.messages s.nextId f hids
  simp only [sendMessage, if_neg htext, updateMsg_append, habs]
  simp [updateMsg, List.append_assoc]

theorem step_frame_apply (s : SessionState) (k : Nat) (c : StreamClient) (t : String)
    (hc : s.clients[k]? = some c) (ho : c.isOpen = true) (ht : ¬ t = "") :
    step s (Event.frame k (FrameData.frame (some t))) = applyDelta s k c t := by
  simp [step, hc, ho, onMessage, ht, applyDelta]

theorem step_frame_skip (s : SessionState) (k : Nat) (c : StreamClient) (d : FrameData)
    (hc : s.clients[k]? = some c) (hd : goodContent d = none) :
    step s (Event.frame k d) = s := by
  have hset : s.clients.set k c = s.clients := list_set_self _ _ _ hc
  cases hopen : c.isOpen with
  | false => simp [step, hc, hopen]
  | true =>
    cases d with
    | malformed => simp [step, hc, hopen, onMessage, hset]
    | frame ot =>
      cases ot with
      | none => simp [step, hc, hopen, onMessage, hset]
      | some t =>
        have ht : t = "" := by
          by_contra hne
          simp [goodContent, hne] at hd
        subst ht
        simp [step, hc, hopen, onMessage, hset]

theorem step_frame_falsy (s : SessionState) (k : Nat) (d : FrameData)
    (hd : goodContent d = none) : step s (Event.frame k d) = s := by
  cases hc : s.clients[k]? with
  | none => simp [step, hc]
  | some c => exact step_frame_skip s k c d hc hd

/-- Core accumulation lemma: delivering a list of frames of one open
stream client appends exactly the truthy contents of the frames that
parse, in delivery order, both to the closure accumulator and to the
placeholder message content; the client stays open and the placeholder
keeps its id and role. -/
theorem run_frames (k : Nat) (fs : List FrameData) (s : SessionState) (c : StreamClient)
    (m : Message) (hc : s.clients[k]? = some c) (ho : c.isOpen = true)
    (hm : getMsg s c.assistantId = some m) (hcont : m.content = c.accumulated) :
    ∃ c2 m2,
      (run s (fs.map fun d => Event.frame k d)).clients[k]? = some c2 ∧
      c2.isOpen = true ∧
      c2.assistantId = c.assistantId ∧
      c2.accumulated = c.accumulated ++ concatAll (goodContents fs) ∧
      getMsg (run s (fs.map fun d => Event.frame k d)) c.assistantId = some m2 ∧
      m2.content = c2.accumulated ∧ m2.id = m.id ∧ m2.role = m.role := by
  induction fs generalizing s c m with
  | nil =>
    have hacc : c.accumulated ++ concatAll (goodContents ([] : List FrameData)) = c.accumulated := by
      simp [goodContents, concatAll, String.append_empty]
    exact ⟨c, m, hc, ho, rfl, hacc.symm, hm, hcont, rfl, rfl⟩
  | cons f fs ih =>
    rw [List.map_cons, run_cons]
    cases f with
    | malformed =>
      rw [step_frame_skip s k c FrameData.malformed hc rfl]
      simpa [goodContents, List.filterMap_cons, goodContent] using ih s c m hc ho hm hcont
    | frame ot =>
      cases ot with
      | none =>
        rw [step_frame_skip s k c (FrameData.frame none) hc rfl]
        simpa [goodContents, List.filterMap_cons, goodContent] using ih s c m hc ho hm hcont
      | some t =>
        by_cases ht : t = ""
        · subst ht
          rw [step_frame_skip s k c (FrameData.frame (some "")) hc (by simp [goodContent])]
          simpa [goodContents, List.filterMap_cons, goodContent] using ih s c m hc ho hm hcont
        · rw [step_frame_apply s k c t hc ho ht]
          have hc2 : (applyDelta s k c t).clients[k]? =
              some { c with accumulated := c.accumulated ++ t } :=
            list_getElem_set_self _ _ _ _ hc
          have hm2 : getMsg (applyDelta s k c t) c.assistantId =
              some { m with content := c.accumulated ++ t, status := Status.streaming } := by
            have h0 := find_updateMsg s.messages c.assistantId
              (fun x => { x with content := c.accumulated ++ t, status := Status.streaming })
              (fun x => rfl)
            have hm0 : s.messages.find? (fun x => x.id == c.assistantId) = some m := hm
            simp only [getMsg, applyDelta]
            rw [h0, hm0]
            rfl
          obtain ⟨c2, m2, h1, h2, h3, h4, h5, h6, h7, h8⟩ :=
            ih (applyDelta s k c t) { c with accumulated := c.accumulated ++ t }
              { m with content := c.accumulated ++ t, status := Status.streaming }
              hc2 ho hm2 rfl
          refine ⟨c2, m2, h1, h2, h3, ?_, h5, h6, h7, h8⟩
          rw [h4]
          have hgood : goodContents (FrameData.frame (some t) :: fs) = t :: goodContents fs := by
            simp [goodContents, List.filterMap_cons, goodContent, ht]
          rw [hgood, concatAll, ← String.append_assoc]

theorem concatAll_cons (a : String) (l : List String) :
    concatAll (a :: l) = a ++ concatAll l := rfl

theorem concatAll_goodContents_map (ds : List String) :
    concatAll (goodContents (ds.map fun d => FrameData.frame (some d))) = concatAll ds := by
  induction ds with
  | nil => rfl
  | cons d ds ih =>
    by_cases hd : d = ""
    · subst hd
      have h1 : concatAll ("" :: ds) = concatAll ds := by
        rw [concatAll_cons, String.empty_append]
      rw [h1, ← ih]
      simp [goodContents, List.filterMap_cons, goodContent]
    · have h1 : goodContents ((d :: ds).map fun x => FrameData.frame (some x)) =
          d :: goodContents (ds.map fun x => FrameData.frame (some x)) := by
        simp [goodContents, List.filterMap_cons, goodContent, hd]
      rw [h1, concatAll_cons, concatAll_cons, ih]

theorem getMsg_sendMessage (s : SessionState) (text : String)
    (htext : ¬ jsTrim text = "")
    (hids : ∀ m ∈ s.messages, m.id < s.nextId) :
    getMsg (sendMessage s text) (s.nextId + 1) =
      some ⟨s.nextId + 1, Role.assistant, "", Status.streaming⟩ := by
  rw [sendMessage_eq s text htext fun m hm => Nat.ne_of_lt (hids m hm)]
  simp only [getMsg]
  rw [find_append_of_none _ s.messages _
    (fun x hx => beq_false_of_ne (by have := hids x hx; omega))]
  have hu : ((⟨s.nextId, Role.user, text, Status.sent⟩ : Message).id == s.nextId + 1) = false :=
    beq_false_of_ne (Nat.ne_of_lt (Nat.lt_succ_self s.nextId))
  have hp : ((⟨s.nextId + 1, Role.assistant, "", Status.streaming⟩ : Message).id ==
      s.nextId + 1) = true := by
    simp only [beq_iff_eq]
  simp [List.find?, hu, hp]

theorem client_sendMessage (s : SessionState) (text : String)
    (htext : ¬ jsTrim text = "")
    (hids : ∀ m ∈ s.messages, m.id ≠ s.nextId) :
    (sendMessage s text).clients[s.clients.length]? = some ⟨s.nextId + 1, "", true⟩ := by
  rw [sendMessage_eq s text htext hids]
  exact List.getElem?_concat_length _ _

/-- Claim C1: for every sequence of well-formed delta frames d1..dn
delivered by one stream client to one assistant placeholder message,
after the last delta is applied the placeholder content equals the
concatenation d1+d2+...+dn in delivery order — each delta applied
exactly once, with no reordering or batching. The turn starts from any
state whose message ids are below the fresh-id counter; the placeholder
is the assistant message created by the send. -/
theorem C1_delta_concatenation (s : SessionState) (text : String) (ds : List String)
    (htext : ¬ jsTrim text = "") (hids : ∀ m ∈ s.messages, m.id < s.nextId) :
    contentOf
      (run s (Event.send text ::
        ds.map fun d => Event.frame s.clients.length (FrameData.frame (some d))))
      (s.nextId + 1) = some (concatAll ds) := by
  rw [run_cons]
  have hc : (sendMessage s text).clients[s.clients.length]? = some ⟨s.nextId + 1, "", true⟩ :=
    client_sendMessage s text htext fun m hm => Nat.ne_of_lt (hids m hm)
  have hm : getMsg (sendMessage s text) (s.nextId + 1) =
      some ⟨s.nextId + 1, Role.assistant, "", Status.streaming⟩ :=
    getMsg_sendMessage s text htext hids
  have hmap : (ds.map fun d => Event.frame s.clients.length (FrameData.frame (some d))) =
      ((ds.map fun d => FrameData.frame (some d)).map fun d => Event.frame s.clients.length d) := by
    rw [List.map_map]
    rfl
  rw [show step s (Event.send text) = sendMessage s text from rfl, hmap]
  obtain ⟨c2, m2, h1, h2, h3, h4, h5, h6, h7, h8⟩ :=
    run_frames s.clients.length (ds.map fun d => FrameData.frame (some d))
      (sendMessage s text) ⟨s.nextId + 1, "", true⟩
      ⟨s.nextId + 1, Role.assistant, "", Status.streaming⟩ hc rfl hm rfl
  simp only [contentOf]
  rw [h5]
  simp [h6, h4, concatAll_goodContents_map, String.empty_append]

theorem C1_witness :
    contentOf
      (run initState (Event.send "Hello" ::
        ["Hi", " there"].map fun d => Event.frame initState.clients.length
          (FrameData.frame (some d))))
      (initState.nextId + 1) = some (concatAll ["Hi", " there"]) :=
  C1_delta_concatenation initState "Hello" ["Hi", " there"] (by decide) (by decide)

/-- Claim C9: a delta payload that fails to parse is dropped — the
session state is entirely unchanged by the malformed frame — and the
stream is not aborted: frames delivered after the malformed one are
still applied, so the final placeholder content is the concatenation of
the contents of exactly the well-formed (parsed, truthy) frames. -/
theorem C9_malformed_frame_tolerance (s : SessionState) (text : String) (fs : List FrameData)
    (htext : ¬ jsTrim text = "") (hids : ∀ m ∈ s.messages, m.id < s.nextId) :
    (∀ (s2 : SessionState) (k2 : Nat), step s2 (Event.frame k2 FrameData.malformed) = s2) ∧
    contentOf
      (run s (Event.send text :: fs.map fun d => Event.frame s.clients.length d))
      (s.nextId + 1) = some (concatAll (goodContents fs)) := by
  constructor
  · exact fun s2 k2 => step_frame_falsy s2 k2 FrameData.malformed rfl
  · rw [run_cons]
    have hc : (sendMessage s text).clients[s.clients.length]? = some ⟨s.nextId + 1, "", true⟩ :=
      client_sendMessage s text htext fun m hm => Nat.ne_of_lt (hids m hm)
    have hm : getMsg (sendMessage s text) (s.nextId + 1) =
        some ⟨s.nextId + 1, Role.assistant, "", Status.streaming⟩ :=
      getMsg_sendMessage s text htext hids
    rw [show step s (Event.send text) = sendMessage s text from rfl]
    obtain ⟨c2, m2, h1, h2, h3, h4, h5, h6, h7, h8⟩ :=
      run_frames s.clients.length fs (sendMessage s text) ⟨s.nextId + 1, "", true⟩
        ⟨s.nextId + 1, Role.assistant, "", Status.streaming⟩ hc rfl hm rfl
    simp only [contentOf]
    rw [h5]
    simp [h6, h4, String.empty_append]

theorem C9_witness :
    (∀ (s2 : SessionState) (k2 : Nat), step s2 (Event.frame k2 FrameData.malformed) = s2) ∧
    contentOf
      (run initState (Event.send "Hello" ::
        [FrameData.frame (some "Hi"), FrameData.malformed,
          FrameData.frame (some " there")].map fun d =>
            Event.frame initState.clients.length d))
      (initState.nextId + 1) =
      some (concatAll (goodContents
        [FrameData.frame (some "Hi"), FrameData.malformed,
          FrameData.frame (some " there")])) :=
  C9_malformed_frame_tolerance initState "Hello"
    [FrameData.frame (some "Hi"), FrameData.malformed, FrameData.frame (some " there")]
    (by decide) (by decide)

/-- Claim C10: a frame that parses as JSON but whose content field is
absent or empty (falsy) — for example an end-of-stream marker without
content — leaves the session state entirely unchanged: no message
content or status is modified and no accumulator is altered. -/
theorem C10_falsy_frame_no_effect (s : SessionState) (k : Nat) :
    step s (Event.frame k (FrameData.frame none)) = s ∧
    step s (Event.frame k (FrameData.frame (some ""))) = s :=
  ⟨step_frame_falsy s k (FrameData.frame none) rfl,
    step_frame_falsy s k (FrameData.frame (some "")) (by simp [goodContent])⟩

theorem run_one (s : SessionState) (e : Event) : run s [e] = step s e := rfl

theorem step_error_eq (s : SessionState) (k : Nat) (c : StreamClient)
    (hc : s.clients[k]? = some c) (ho : c.isOpen = true) :
    step s (Event.error k) =
      { s with
        clients := s.clients.set k { c with isOpen := false }
        messages := updateMsg s.messages c.assistantId fun m => { m with status := Status.sent }
        isProcessing := false } := by
  simp [step, hc, ho, onError]

theorem getMsg_step_error (s : SessionState) (k : Nat) (c : StreamClient) (m : Message)
    (hc : s.clients[k]? = some c) (ho : c.isOpen = true)
    (hm : getMsg s c.assistantId = some m) :
    getMsg (step s (Event.error k)) c.assistantId = some { m with status := Status.sent } := by
  rw [step_error_eq s k c hc ho]
  have h0 := find_updateMsg s.messages c.assistantId
    (fun x => { x with status := Status.sent }) (fun x => rfl)
  have hm0 : s.messages.find? (fun x => x.id == c.assistantId) = some m := hm
  show (updateMsg s.messages c.assistantId fun x => { x with status := Status.sent }).find?
      (fun x => x.id == c.assistantId) = some { m with status := Status.sent }
  rw [h0, hm0]
  rfl

/-- Claim C2 as stated is false on the code: when the stream errors
before any delta, the onerror handler still marks the placeholder sent
— its status is sent and differs from error (the content is empty as
the claim says). -/
theorem C2_counterexample :
    statusOf (run initState [Event.send "Hello", Event.error 0]) 1 = some Status.sent ∧
    statusOf (run initState [Event.send "Hello", Event.error 0]) 1 ≠ some Status.error ∧
    contentOf (run initState [Event.send "Hello", Event.error 0]) 1 = some "" := by
  decide

/-- Claim C2, amended: if the stream errors before any delta has been
received, the assistant placeholder ends with status sent (not error)
and empty content. -/
theorem C2_error_before_delta (s : SessionState) (text : String)
    (htext : ¬ jsTrim text = "") (hids : ∀ m ∈ s.messages, m.id < s.nextId) :
    statusOf (run s [Event.send text, Event.error s.clients.length]) (s.nextId + 1) =
      some Status.sent ∧
    contentOf (run s [Event.send text, Event.error s.clients.length]) (s.nextId + 1) =
      some "" := by
  have hc := client_sendMessage s text htext fun m hm => Nat.ne_of_lt (hids m hm)
  have hm := getMsg_sendMessage s text htext hids
  have hg := getMsg_step_error (sendMessage s text) s.clients.length
    ⟨s.nextId + 1, "", true⟩ ⟨s.nextId + 1, Role.assistant, "", Status.streaming⟩ hc rfl hm
  have hg2 : getMsg (step (sendMessage s text) (Event.error s.clients.length)) (s.nextId + 1) =
      some ⟨s.nextId + 1, Role.assistant, "", Status.sent⟩ := hg
  have hrun : run s [Event.send text, Event.error s.clients.length] =
      step (sendMessage s text) (Event.error s.clients.length) := rfl
  rw [hrun]
  constructor
  · simp only [statusOf]
    rw [hg2]
    rfl
  · simp only [contentOf]
    rw [hg2]
    rfl

theorem C2_witness :
    statusOf (run initState [Event.send "Hello", Event.error initState.clients.length])
      (initState.nextId + 1) = some Status.sent ∧
    contentOf (run initState [Event.send "Hello", Event.error initState.clients.length])
      (initState.nextId + 1) = some "" :=
  C2_error_before_delta initState "Hello" (by decide) (by decide)

/-- Claim C3: if the stream delivers at least one delta and then errors,
the assistant placeholder ends with status sent and its content equals
the deltas accumulated so far — the partial content is preserved and the
message is still present in the transcript, not removed. -/
theorem C3_partial_content_preserved (s : SessionState) (text : String) (ds : List String)
    (htext : ¬ jsTrim text = "") (hids : ∀ m ∈ s.messages, m.id < s.nextId)
    (_hds : ds ≠ []) :
    statusOf
      (run s (Event.send text ::
        ((ds.map fun d => Event.frame s.clients.length (FrameData.frame (some d))) ++
          [Event.error s.clients.length])))
      (s.nextId + 1) = some Status.sent ∧
    contentOf
      (run s (Event.send text ::
        ((ds.map fun d => Event.frame s.clients.length (FrameData.frame (some d))) ++
          [Event.error s.clients.length])))
      (s.nextId + 1) = some (concatAll ds) := by
  have hc := client_sendMessage s text htext fun m hm => Nat.ne_of_lt (hids m hm)
  have hm := getMsg_sendMessage s text htext hids
  have hmap : (ds.map fun d => Event.frame s.clients.length (FrameData.frame (some d))) =
      ((ds.map fun d => FrameData.frame (some d)).map fun d => Event.frame s.clients.length d) := by
    rw [List.map_map]
    rfl
  obtain ⟨c2, m2, h1, h2, h3, h4, h5, h6, h7, h8⟩ :=
    run_frames s.clients.length (ds.map fun d => FrameData.frame (some d))
      (sendMessage s text) ⟨s.nextId + 1, "", true⟩
      ⟨s.nextId + 1, Role.assistant, "", Status.streaming⟩ hc rfl hm rfl
  rw [run_cons, show step s (Event.send text) = sendMessage s text from rfl, run_append,
    hmap, run_one]
  have h5x : getMsg (run (sendMessage s text)
      ((ds.map fun d => FrameData.frame (some d)).map fun d => Event.frame s.clients.length d))
      c2.assistantId = some m2 := by
    rw [h3]
    exact h5
  have hfinal := getMsg_step_error _ s.clients.length c2 m2 h1 h2 h5x
  rw [h3] at hfinal
  have hfin : getMsg (step (run (sendMessage s text)
      ((ds.map fun d => FrameData.frame (some d)).map fun d => Event.frame s.clients.length d))
      (Event.error s.clients.length)) (s.nextId + 1) = some { m2 with status := Status.sent } :=
    hfinal
  constructor
  · simp only [statusOf]
    rw [hfin]
    rfl
  · simp only [contentOf]
    rw [hfin]
    simp [h6, h4, concatAll_goodContents_map, String.empty_append]

theorem C3_witness :
    statusOf
      (run initState (Event.send "Hello" ::
        ((["Hi"].map fun d => Event.frame initState.clients.length (FrameData.frame (some d))) ++
          [Event.error initState.clients.length])))
      (initState.nextId + 1) = some Status.sent ∧
    contentOf
      (run initState (Event.send "Hello" ::
        ((["Hi"].map fun d => Event.frame initState.clients.length (FrameData.frame (some d))) ++
          [Event.error initState.clients.length])))
      (initState.nextId + 1) = some (concatAll ["Hi"]) :=
  C3_partial_content_preserved initState "Hello" ["Hi"] (by decide) (by decide) (by decide)

/-- Claim C8 as stated is false on the code: after a stream error the
connection state still has status connected (not error) and an empty
message — only isProcessing is reset. -/
theorem C8_counterexample :
    (run initState [Event.send "Hello", Event.error 0]).connection.status = CStatus.connected ∧
    (run initState [Event.send "Hello", Event.error 0]).connection.status ≠ CStatus.error ∧
    (run initState [Event.send "Hello", Event.error 0]).connection.message = "" ∧
    (run initState [Event.send "Hello", Event.error 0]).isProcessing = false := by
  decide

/-- Claim C8, amended: when a stream error occurs during a turn, the
onerror handler closes the client and sets isProcessing false, but
leaves the connection state entirely unchanged — it never sets status
error or a user-facing message. -/
theorem C8_connection_untouched (s : SessionState) (k : Nat) (c : StreamClient)
    (hc : s.clients[k]? = some c) (ho : c.isOpen = true) :
    (step s (Event.error k)).connection = s.connection ∧
    (step s (Event.error k)).isProcessing = false ∧
    (step s (Event.error k)).clients[k]? = some { c with isOpen := false } := by
  rw [step_error_eq s k c hc ho]
  exact ⟨rfl, rfl, list_getElem_set_self _ _ _ _ hc⟩

theorem C8_witness :
    (step (run initState [Event.send "Hello"]) (Event.error 0)).connection =
      (run initState [Event.send "Hello"]).connection ∧
    (step (run initState [Event.send "Hello"]) (Event.error 0)).isProcessing = false ∧
    (step (run initState [Event.send "Hello"]) (Event.error 0)).clients[0]? =
      some ⟨1, "", false⟩ :=
  C8_connection_untouched (run initState [Event.send "Hello"]) 0 ⟨1, "", true⟩ (by decide) rfl

theorem step_send_clients (s : SessionState) (text : String) (k : Nat) (c : StreamClient)
    (hc : s.clients[k]? = some c) : (step s (Event.send text)).clients[k]? = some c := by
  show (sendMessage s text).clients[k]? = some c
  by_cases ht : jsTrim text = ""
  · simp [sendMessage, ht, hc]
  · simp only [sendMessage, if_neg ht]
    exact list_getElem_append_left _ _ _ _ hc

/-- Claim C4 as stated is false on the code: after a second sendMessage
issued while the first turn's stream client is still open, two stream
clients of the session are simultaneously in a non-terminal (open)
state — nothing closed the first one. -/
theorem C4_counterexample :
    openClientCount (run initState [Event.send "a", Event.send "b"]) = 2 ∧
    ¬ openClientCount (run initState [Event.send "a", Event.send "b"]) ≤ 1 := by
  decide

/-- Claim C4, amended: neither clearChat nor a new sendMessage closes an
existing stream client — any client present before such an event is
still present, unchanged (so still open if it was open), afterwards;
consequently several clients per session can be non-terminal at once,
and a client reaches a terminal state only through its own onerror. -/
theorem C4_no_close_on_send_or_clear (s : SessionState) (text : String) (k : Nat)
    (c : StreamClient) (hc : s.clients[k]? = some c) :
    (step s (Event.send text)).clients[k]? = some c ∧
    (step s Event.clear).clients[k]? = some c :=
  ⟨step_send_clients s text k c hc, hc⟩

theorem C4_witness :
    (step (run initState [Event.send "a"]) (Event.send "b")).clients[0]? =
      some ⟨1, "", true⟩ ∧
    (step (run initState [Event.send "a"]) Event.clear).clients[0]? =
      some ⟨1, "", true⟩ :=
  C4_no_close_on_send_or_clear (run initState [Event.send "a"]) "b" 0 ⟨1, "", true⟩ (by decide)

/-- Claim C5 as stated is false on the code: sendMessage has no
isProcessing guard — called on a state whose isProcessing flag is true
it is not a no-op: the transcript changes (two messages are appended)
and a second stream client is opened. -/
theorem C5_counterexample :
    busyState.isProcessing = true ∧
    (step busyState (Event.send "hello")).messages ≠ busyState.messages ∧
    (step busyState (Event.send "hello")).messages.length = busyState.messages.length + 2 ∧
    openClientCount (step busyState (Event.send "hello")) = 2 := by
  decide

/-- Claim C5, amended: sendMessage never consults isProcessing; on any
state — including one with a turn already in flight — a call with
non-whitespace text appends the user message (marked sent) and the
assistant placeholder and opens one more stream client; only empty or
whitespace-only text is a no-op. -/
theorem C5_no_isProcessing_guard (s : SessionState) (text : String)
    (htext : ¬ jsTrim text = "") (hids : ∀ m ∈ s.messages, m.id ≠ s.nextId) :
    (step s (Event.send text)).messages =
      s.messages ++ [⟨s.nextId, Role.user, text, Status.sent⟩,
        ⟨s.nextId + 1, Role.assistant, "", Status.streaming⟩] ∧
    (step s (Event.send text)).clients = s.clients ++ [⟨s.nextId + 1, "", true⟩] := by
  rw [show step s (Event.send text) = sendMessage s text from rfl,
    sendMessage_eq s text htext hids]
  exact ⟨rfl, rfl⟩

theorem C5_witness :
    (step busyState (Event.send "hello")).messages =
      busyState.messages ++ [⟨2, Role.user, "hello", Status.sent⟩,
        ⟨3, Role.assistant, "", Status.streaming⟩] ∧
    (step busyState (Event.send "hello")).clients = busyState.clients ++ [⟨3, "", true⟩] :=
  C5_no_isProcessing_guard busyState "hello" (by decide) (by decide)

/-- Claim C7 as stated is false on the code: an update addressed to an
id absent from the transcript leaves the transcript unchanged but fails
with nothing — the map-based setMessages update is a total function and
returns the transcript as a silent no-op, whereas the
specification-side update is the one that fails with NotFoundError. -/
theorem C7_counterexample :
    updateMsg exMsgs 99 (fun m => { m with status := Status.error }) = exMsgs ∧
    specUpdate exMsgs 99 (fun m => { m with status := Status.error }) =
      Except.error TSError.notFound :=
  ⟨rfl, rfl⟩

/-- Claim C7, amended: a transcript update addressed to an id not
present in the transcript leaves the transcript unchanged, but it does
not fail: the map-based update silently ignores the missing id — no
NotFoundError (or any other failure) exists on this path in the code. -/
theorem C7_update_absent_silent_noop (ms : List Message) (i : Nat) (f : Message → Message)
    (h : ∀ m ∈ ms, m.id ≠ i) : updateMsg ms i f = ms :=
  updateMsg_absent ms i f h

theorem C7_witness :
    updateMsg exMsgs 99 (fun m => { m with status := Status.sent }) = exMsgs :=
  C7_update_absent_silent_noop exMsgs 99 (fun m => { m with status := Status.sent }) (by decide)

theorem onMessage_idRole (c : StreamClient) (ms : List Message) (d : FrameData) :
    (onMessage c ms d).2.map idRole = ms.map idRole := by
  cases d with
  | malformed => rfl
  | frame ot =>
    cases ot with
    | none => rfl
    | some t =>
      by_cases ht : t = ""
      · simp [onMessage, ht]
      · simp only [onMessage, if_neg ht]
        exact updateMsg_idRole ms c.assistantId _ fun m => ⟨rfl, rfl⟩

theorem step_frame_idRole (s : SessionState) (k : Nat) (d : FrameData) :
    (step s (Event.frame k d)).messages.map idRole = s.messages.map idRole := by
  cases hc : s.clients[k]? with
  | none => simp [step, hc]
  | some c =>
    cases ho : c.isOpen with
    | false => simp [step, hc, ho]
    | true =>
      have h1 : (step s (Event.frame k d)).messages = (onMessage c s.messages d).2 := by
        simp [step, hc, ho]
      rw [h1]
      exact onMessage_idRole c s.messages d

theorem step_error_idRole (s : SessionState) (k : Nat) :
    (step s (Event.error k)).messages.map idRole = s.messages.map idRole := by
  cases hc : s.clients[k]? with
  | none => simp [step, hc]
  | some c =>
    cases ho : c.isOpen with
    | false => simp [step, hc, ho]
    | true =>
      have h1 : (step s (Event.error k)).messages =
          updateMsg s.messages c.assistantId fun m => { m with status := Status.sent } := by
        simp [step, hc, ho, onError]
      rw [h1]
      exact updateMsg_idRole s.messages c.assistantId _ fun m => ⟨rfl, rfl⟩

theorem step_nextId (s : SessionState) (e : Event) (hs : ∀ t, e ≠ Event.send t) :
    (step s e).nextId = s.nextId := by
  cases e with
  | send t => exact absurd rfl (hs t)
  | clear => rfl
  | frame k d =>
    cases hc : s.clients[k]? with
    | none => simp [step, hc]
    | some c =>
      cases ho : c.isOpen with
      | false => simp [step, hc, ho]
      | true => simp [step, hc, ho]
  | error k =>
    cases hc : s.clients[k]? with
    | none => simp [step, hc]
    | some c =>
      cases ho : c.isOpen with
      | false => simp [step, hc, ho]
      | true => simp [step, hc, ho, onError]

theorem sendMessage_idRole (s : SessionState) (text : String) (htext : ¬ jsTrim text = "") :
    (sendMessage s text).messages.map idRole =
      s.messages.map idRole ++ [(s.nextId, Role.user), (s.nextId + 1, Role.assistant)] ∧
    (sendMessage s text).nextId = s.nextId + 2 := by
  constructor
  · simp only [sendMessage, if_neg htext]
    rw [List.map_append,
      updateMsg_idRole
        (s.messages ++ [(⟨s.nextId, Role.user, text, Status.sending⟩ : Message)]) s.nextId
        (fun m => { m with status := Status.sent }) (fun m => ⟨rfl, rfl⟩),
      List.map_append, List.append_assoc]
    rfl
  · simp [sendMessage, if_neg htext]

theorem run_idRole_trace (es : List Event) (s : SessionState) (hnc : Event.clear ∉ es) :
    (run s es).messages.map idRole = s.messages.map idRole ++ appendTrace s.nextId es := by
  induction es generalizing s with
  | nil => simp [run, appendTrace]
  | cons e es ih =>
    have hnc2 : Event.clear ∉ es := fun h => hnc (List.mem_cons_of_mem e h)
    rw [run_cons]
    cases e with
    | clear => exact absurd (List.mem_cons_self _ _) hnc
    | send t =>
      by_cases ht : jsTrim t = ""
      · have hstep : step s (Event.send t) = s := by simp [step, sendMessage, ht]
        rw [hstep, ih s hnc2]
        simp [appendTrace, ht]
      · have h1 := sendMessage_idRole s t ht
        rw [show step s (Event.send t) = sendMessage s t from rfl,
          ih (sendMessage s t) hnc2, h1.1, h1.2]
        simp [appendTrace, ht, List.append_assoc]
    | frame k d =>
      rw [ih (step s (Event.frame k d)) hnc2, step_frame_idRole,
        step_nextId s (Event.frame k d) (fun t h => Event.noConfusion h)]
      simp [appendTrace]
    | error k =>
      rw [ih (step s (Event.error k)) hnc2, step_error_idRole,
        step_nextId s (Event.error k) (fun t h => Event.noConfusion h)]
      simp [appendTrace]

theorem appendTrace_ids_ge (es : List Event) (n : Nat) :
    ∀ p ∈ appendTrace n es, n ≤ p.1 := by
  induction es generalizing n with
  | nil =>
    intro p hp
    simp [appendTrace] at hp
  | cons e es ih =>
    intro p hp
    cases e with
    | send t =>
      by_cases ht : jsTrim t = ""
      · rw [appendTrace, if_pos ht] at hp
        exact ih n p hp
      · rw [appendTrace, if_neg ht] at hp
        simp only [List.mem_cons] at hp
        rcases hp with hp | hp | hp
        · subst hp
          exact Nat.le_refl n
        · subst hp
          exact Nat.le_succ n
        · have := ih (n + 2) p hp
          omega
    | clear =>
      rw [appendTrace] at hp
      exact ih n p hp
    | frame k d =>
      rw [appendTrace] at hp
      exact ih n p hp
    | error k =>
      rw [appendTrace] at hp
      exact ih n p hp

theorem appendTrace_nodup (es : List Event) (n : Nat) :
    ((appendTrace n es).map Prod.fst).Nodup := by
  induction es generalizing n with
  | nil => simp [appendTrace]
  | cons e es ih =>
    cases e with
    | send t =>
      by_cases ht : jsTrim t = ""
      · rw [appendTrace, if_pos ht]
        exact ih n
      · rw [appendTrace, if_neg ht]
        simp only [List.map_cons, List.nodup_cons, List.mem_cons, List.mem_map]
        refine ⟨?_, ?_, ih (n + 2)⟩
        · intro h
          rcases h with h | ⟨p, hp, hfst⟩
          · omega
          · have := appendTrace_ids_ge es (n + 2) p hp
            omega
        · intro h
          obtain ⟨p, hp, hfst⟩ := h
          have := appendTrace_ids_ge es (n + 2) p hp
          omega
    | clear =>
      rw [appendTrace]
      exact ih n
    | frame k d =>
      rw [appendTrace]
      exact ih n
    | error k =>
      rw [appendTrace]
      exact ih n

/-- Claim C6: across any sequence of events that append or update the
transcript (every event except clear, which empties it), message ids
remain unique, the transcript's (id, role) sequence is exactly the
append trace of the events in call order — insertion is append-only
with no reordering, and no appended message ever disappears; every
message carries a status field on every path by construction. -/
theorem C6_transcript_integrity (es : List Event) (hnc : Event.clear ∉ es) :
    (run initState es).messages.map idRole = appendTrace 0 es ∧
    ((run initState es).messages.map fun m => m.id).Nodup := by
  have h1 := run_idRole_trace es initState hnc
  have h2 : (run initState es).messages.map idRole = appendTrace 0 es := by
    simpa [initState] using h1
  refine ⟨h2, ?_⟩
  have h3 : ((run initState es).messages.map fun m => m.id) =
      ((run initState es).messages.map idRole).map Prod.fst := by
    rw [List.map_map]
    rfl
  rw [h3, h2]
  exact appendTrace_nodup es 0

theorem C6_witness :
    (run initState evList).messages.map idRole = appendTrace 0 evList ∧
    ((run initState evList).messages.map fun m => m.id).Nodup :=
  C6_transcript_integrity evList (by decide)
